/-
Verification of the FUND-SELECTOR-CN computation pipeline.

Shallow embedding of the pure computational core of the repository:
  * `src/data_loader.py`   — `preprocess_fund_data` (SeriesNormalizer)
  * `src/indicators.py`    — `calculate_technical_indicators`,
                             `calculate_performance_metrics`,
                             `detect_golden_cross_death_cross`
  * `src/visualization.py` — `generate_technical_analysis_summary`

Modelling conventions:
  * pandas float values are embedded as `Option ℚ`: `none` models NaN
    (a missing / warm-up / unparseable value), `some q` a finite float,
    with exact rational arithmetic in place of IEEE floats.
  * Python float comparisons involving NaN are always `False`; the
    `optLE` / `optLT` / `optGE` / `optGT` helpers below reproduce this.
  * A pandas `DataFrame` argument that may be `None` is embedded as an
    `Option` of the row list; `df.empty` corresponds to the row list
    being `[]`.
  * Dates are embedded as naturals (pandas datetimes are totally
    ordered; only their order and equality are used by the code).
  * numpy / scipy transcendental kernels (float power, sqrt, std, mean,
    cov, var) have no exact rational counterpart; they enter only as
    opaque value producers and are abstracted into a `NumericKernels`
    parameter record.  All control flow, guards and field presence are
    embedded exactly.
-/
import Mathlib

namespace FundSelector

/-! ## NaN-aware comparisons (Python float semantics)

In Python/pandas any comparison with NaN is `False`.  An `Option ℚ`
models a float that may be NaN (`none`). -/

/-- Comparison `a <= b` with Python NaN semantics: false when either side is NaN. -/
def optLE : Option ℚ → Option ℚ → Bool
  | some a, some b => decide (a ≤ b)
  | _, _ => false

/-- Comparison `a < b` with Python NaN semantics: false when either side is NaN. -/
def optLT : Option ℚ → Option ℚ → Bool
  | some a, some b => decide (a < b)
  | _, _ => false

/-- Comparison `a >= b` with Python NaN semantics: false when either side is NaN. -/
def optGE : Option ℚ → Option ℚ → Bool
  | some a, some b => decide (b ≤ a)
  | _, _ => false

/-- Comparison `a > b` with Python NaN semantics: false when either side is NaN. -/
def optGT : Option ℚ → Option ℚ → Bool
  | some a, some b => decide (b < a)
  | _, _ => false

/-! ## `data_loader.preprocess_fund_data`

A raw vendor row after the date/price column resolution of
`preprocess_fund_data` (lines 213–237): the selected date column parsed
to a datetime (embedded ℕ) and the selected NAV column already passed
through `pd.to_numeric(..., errors=coerce)`, so an unparseable price
is NaN (`none`). -/

structure RawRow where
  date : ℕ
  nav : Option ℚ
deriving DecidableEq, Repr

/-- The preprocessed frame: the `date`, `nav` and `cum_nav` columns
produced by `preprocess_fund_data` (rows with NaN nav dropped). -/
structure CanonDf where
  dates : List ℕ
  nav : List ℚ
  cum_nav : List ℚ
deriving DecidableEq, Repr

/-- Row order used by `df.sort_values(date)`. -/
def dateLe (a b : RawRow) : Prop := a.date ≤ b.date

instance : DecidableRel dateLe := fun a b => (inferInstance : Decidable (a.date ≤ b.date))

instance : IsTotal RawRow dateLe := ⟨fun a b => Nat.le_total a.date b.date⟩

instance : IsTrans RawRow dateLe := ⟨fun _ _ _ h₁ h₂ => Nat.le_trans h₁ h₂⟩

/-- Sorting `df.sort_values(date)` followed by
`df.dropna(subset=[nav, date])` (lines 224, 240): sort ascending by
date, then drop rows whose nav is NaN. -/
def cleanedRows (rows : List RawRow) : List RawRow :=
  (List.insertionSort dateLe rows).filter (fun r => r.nav.isSome)

/-- Body of `preprocess_fund_data` on a non-`None` frame
(lines 208–245).  After sorting and dropping NaN-nav rows, the
`cum_nav` column is `nav / nav.iloc[0]`.  When every row is dropped,
`df[nav].iloc[0]` raises `IndexError`, the surrounding `except`
catches it and the function returns `None`. -/
def preprocessRows (rows : List RawRow) : Option CanonDf :=
  if rows = [] then none
  else
    match (cleanedRows rows).filterMap (fun r => r.nav) with
    | [] => none
    | n0 :: rest =>
      some { dates := (cleanedRows rows).map (fun r => r.date)
             nav := n0 :: rest
             cum_nav := (n0 :: rest).map (fun x => x / n0) }

/-- Embedding of `preprocess_fund_data` (lines 198–249): `None` or empty input yields
`None`. -/
def preprocess_fund_data (df_raw : Option (List RawRow)) : Option CanonDf :=
  match df_raw with
  | none => none
  | some rows => preprocessRows rows

/-! Helper lemmas about `preprocess_fund_data`. -/

/-! ## `indicators.calculate_performance_metrics`: max drawdown

Embedding of lines 143–145:
  `rolling_max = df[cum_nav].expanding().max()`
  `drawdown = (df[cum_nav] - rolling_max) / rolling_max`
  `max_drawdown = drawdown.min()` -/

/-- Tail of `expanding().max()`: running maxima continuing from an
accumulated maximum `m`. -/
def expandingMaxAux (m : ℚ) : List ℚ → List ℚ
  | [] => []
  | x :: xs => max m x :: expandingMaxAux (max m x) xs

/-- Embedding of `series.expanding().max()`: element `i` is the maximum of the first
`i+1` elements. -/
def expandingMax : List ℚ → List ℚ
  | [] => []
  | x :: xs => x :: expandingMaxAux x xs

/-- The `drawdown` series: `(cum_nav - rolling_max) / rolling_max`
elementwise. -/
def drawdownList (c : List ℚ) : List ℚ :=
  (c.zip (expandingMax c)).map (fun p => (p.1 - p.2) / p.2)

/-- Embedding of `series.min()`: `none` on an empty series (pandas yields NaN). -/
def listMinimum : List ℚ → Option ℚ
  | [] => none
  | x :: xs => some (xs.foldl min x)

/-- Embedding of `max_drawdown = drawdown.min()` (line 145); the enclosing function
only evaluates it on a non-empty frame. -/
def max_drawdown (c : List ℚ) : ℚ := (listMinimum (drawdownList c)).getD 0

/-! ## `indicators.detect_golden_cross_death_cross`

Embedding of lines 219–258 (and the identical loop of
`visualization.detect_cross_points`, lines 170–194).  A row is the pair
of the short-MA and long-MA values at one index, each possibly NaN
during warm-up.  The loop emits `df[date].iloc[i]`; since a row is
identified by its index here, events are recorded as indices.  NaN
comparisons are `False` in Python, so a pair touching a NaN value
matches neither branch. -/

/-- Loop body of lines 245–252 for indices `i, i+1, ...`, with `prev`
the row at `i-1`: golden cross when `short[i-1] <= long[i-1]` and
`short[i] > long[i]`; otherwise (`elif`) death cross when
`short[i-1] >= long[i-1]` and `short[i] < long[i]`. -/
def detectCrossesAux (i : ℕ) (prev : Option ℚ × Option ℚ) :
    List (Option ℚ × Option ℚ) → List ℕ × List ℕ
  | [] => ([], [])
  | r :: rs =>
    if optLE prev.1 prev.2 && optGT r.1 r.2 then
      (i :: (detectCrossesAux (i + 1) r rs).1, (detectCrossesAux (i + 1) r rs).2)
    else if optGE prev.1 prev.2 && optLT r.1 r.2 then
      ((detectCrossesAux (i + 1) r rs).1, i :: (detectCrossesAux (i + 1) r rs).2)
    else detectCrossesAux (i + 1) r rs

/-- The scan `for i in range(1, len(df))` starting from row 0 as the
first `prev`.  On an empty frame the loop body never runs. -/
def detectCrossRows (rows : List (Option ℚ × Option ℚ)) : List ℕ × List ℕ :=
  match rows with
  | [] => ([], [])
  | r :: rs => detectCrossesAux 1 r rs

/-- Embedding of `detect_golden_cross_death_cross` (lines 219–258): a `None` or
empty frame returns `([], [])` (guard at lines 231–232). -/
def detect_golden_cross_death_cross
    (df : Option (List (Option ℚ × Option ℚ))) : List ℕ × List ℕ :=
  match df with
  | none => ([], [])
  | some rows => detectCrossRows rows

/-! ## `indicators.calculate_performance_metrics` (lines 113–194)

The fund frame rows carry `date`, `nav` and `cum_nav`; the benchmark
frame rows carry `trade_date` and `close`.  The guards, alignment and
field presence are embedded exactly; the numeric kernels with no exact
rational counterpart (float power `**`, `np.sqrt(252)`, `Series.std`,
`Series.mean`, `np.cov`, `np.var`) are abstracted as an arbitrary
`NumericKernels` record, since none of the verified claims depends on
their values. -/

structure NumericKernels where
  rpow : ℚ → ℚ → ℚ
  sqrt252 : ℚ
  std : List ℚ → ℚ
  mean : List ℚ → ℚ
  cov : List ℚ → List ℚ → ℚ
  var : List ℚ → ℚ

structure FundRow where
  date : ℕ
  nav : ℚ
  cum_nav : ℚ
deriving DecidableEq, Repr

structure BenchRow where
  trade_date : ℕ
  close : ℚ
deriving DecidableEq, Repr

/-- Embedding of `series.pct_change().dropna()`: consecutive ratios minus 1, with
the leading NaN dropped. -/
def pct_change : List ℚ → List ℚ
  | x0 :: x1 :: xs => (x1 / x0 - 1) :: pct_change (x1 :: xs)
  | _ => []

/-- The metrics dict.  The six base statistics are always set
(lines 155–160); the three benchmark-relative ones are optional
(lines 186–188). -/
structure PerfMetrics where
  total_return : ℚ
  annual_return : ℚ
  annual_volatility : ℚ
  max_drawdown : ℚ
  sharpe_ratio : ℚ
  calmar_ratio : ℚ
  beta : Option ℚ
  information_ratio : Option ℚ
  tracking_error : Option ℚ

/-- Line 149: `(annual_return - 0.03) / annual_volatility if
annual_volatility > 0 else 0`. -/
def sharpe_ratio (annual_return annual_volatility : ℚ) : ℚ :=
  if annual_volatility > 0 then (annual_return - 3 / 100) / annual_volatility
  else 0

/-- Line 152: `annual_return / abs(max_drawdown) if max_drawdown != 0
else 0`. -/
def calmar_ratio (annual_return md : ℚ) : ℚ :=
  if md ≠ 0 then annual_return / |md| else 0

/-- Lines 166–188: date alignment (inner-join on exact dates) and the
benchmark-relative metrics; `(none, none, none)` when the aligned sets
are empty or of unequal length. -/
def relative_metrics (K : NumericKernels) (rows : List FundRow)
    (brows : List BenchRow) : Option ℚ × Option ℚ × Option ℚ :=
  let fund_aligned := rows.filter
    (fun r => brows.any (fun b => b.trade_date = r.date))
  let benchmark_aligned := brows.filter
    (fun b => fund_aligned.any (fun r => r.date = b.trade_date))
  if 0 < fund_aligned.length ∧ 0 < benchmark_aligned.length then
    let fund_rets := pct_change (fund_aligned.map (fun r => r.nav))
    let bench_rets := pct_change (benchmark_aligned.map (fun b => b.close))
    let excess := List.zipWith (fun a b => a - b) fund_rets bench_rets
    let te := K.std excess * K.sqrt252
    let ir := if 0 < te then K.mean excess * K.sqrt252 / te else 0
    if fund_aligned.length = benchmark_aligned.length then
      let covariance := K.cov fund_rets bench_rets
      let benchmark_variance := K.var bench_rets
      let b := if 0 < benchmark_variance then covariance / benchmark_variance
               else 1
      (some b, some ir, some te)
    else (none, none, none)
  else (none, none, none)

/-- Embedding of `calculate_performance_metrics` (lines 113–194).  `None`/empty
input returns `None` (lines 124–125); the unused `benchmark_returns`
of line 164 has no observable effect and is not modelled. -/
def calculate_performance_metrics (K : NumericKernels)
    (df : Option (List FundRow)) (benchmark_df : Option (List BenchRow)) :
    Option PerfMetrics :=
  match df with
  | none => none
  | some [] => none
  | some (r0 :: rest) =>
    let navs := (r0 :: rest).map (fun r => r.nav)
    let returns := pct_change navs
    let cum_returns :=
      ((r0 :: rest).getLast (List.cons_ne_nil r0 rest)).cum_nav / r0.cum_nav - 1
    let years : ℚ := (((r0 :: rest).length : ℕ) : ℚ) / 252
    let annual_return := K.rpow (1 + cum_returns) (1 / years) - 1
    let annual_volatility := K.std returns * K.sqrt252
    let md := max_drawdown ((r0 :: rest).map (fun r => r.cum_nav))
    let rel := match benchmark_df with
      | some brows =>
        if brows = [] then (none, none, none)
        else relative_metrics K (r0 :: rest) brows
      | none => (none, none, none)
    some { total_return := cum_returns
           annual_return := annual_return
           annual_volatility := annual_volatility
           max_drawdown := md
           sharpe_ratio := sharpe_ratio annual_return annual_volatility
           calmar_ratio := calmar_ratio annual_return md
           beta := rel.1
           information_ratio := rel.2.1
           tracking_error := rel.2.2 }

/-- All-zero numeric kernels, used to instantiate witnesses. -/
def zeroKernels : NumericKernels :=
  ⟨fun _ _ => 0, 0, fun _ => 0, fun _ => 0, fun _ _ => 0, fun _ => 0⟩

/-- The metrics record produced by `calculate_performance_metrics` with
`zeroKernels` on the one-row frame used by the C5 witness. -/
def sentinelWitnessMetrics : PerfMetrics := ⟨0, -1, 0, 0, 0, 0, none, none, none⟩

/-! ## `visualization.generate_technical_analysis_summary` (lines 697–939)

The function reads only the latest row (`df.iloc[-1]`) of the
indicator frame.  `Latest` holds, for each indicator block, `none`
when the block's columns are absent from the frame, and otherwise the
latest values (each possibly NaN).  The `rsi` component carries the
window of the single `RSI{n}`-named column together with its latest
value; the risk-tier code at line 916 tests specifically for a column
named `RSI14`, i.e. window 14. -/

inductive Signal where
  | bullish
  | bearish
  | neutral
deriving DecidableEq, Repr

inductive Risk where
  | low
  | medium
  | high
deriving DecidableEq, Repr

structure Latest where
  nav : Option ℚ
  macd : Option (Option ℚ × Option ℚ)
  rsi : Option (ℕ × Option ℚ)
  kdj : Option (Option ℚ × Option ℚ × Option ℚ)
  boll : Option (Option ℚ × Option ℚ × Option ℚ)
  cci : Option (Option ℚ)
  dmi : Option (Option ℚ × Option ℚ × Option ℚ)
  mfi : Option (Option ℚ)
  bbi : Option (Option ℚ)
  trix : Option (Option ℚ)
  atr : Option (Option ℚ)
deriving DecidableEq, Repr

/-- NaN-propagating subtraction (for `hist_latest = dif - dea`). -/
def optSub : Option ℚ → Option ℚ → Option ℚ
  | some a, some b => some (a - b)
  | _, _ => none

/-- MACD block, lines 729–740. -/
def macdSignal (dif dea : Option ℚ) : Signal :=
  if optGT dif dea && optGT (optSub dif dea) (some 0) then Signal.bullish
  else if optLT dif dea && optLT (optSub dif dea) (some 0) then Signal.bearish
  else Signal.neutral

/-- RSI block, lines 748–757: overbought (>70) votes bearish, oversold
(<30) votes bullish. -/
def rsiSignal (rsi : Option ℚ) : Signal :=
  if optGT rsi (some 70) then Signal.bearish
  else if optLT rsi (some 30) then Signal.bullish
  else Signal.neutral

/-- KDJ block, lines 765–782. -/
def kdjSignal (k d j : Option ℚ) : Signal :=
  if optGT k (some 80) && optGT d (some 80) then Signal.bearish
  else if optLT k (some 20) && optLT d (some 20) then Signal.bullish
  else if optGT k d && optGT j (some 0) then Signal.bullish
  else if optLT k d && optLT j (some 0) then Signal.bearish
  else Signal.neutral

/-- Bollinger block, lines 790–808: above upper band votes bearish
(pullback), below lower votes bullish, above middle bullish, else
bearish. -/
def bollSignal (nav upper middle lower : Option ℚ) : Signal :=
  if optGT nav upper then Signal.bearish
  else if optLT nav lower then Signal.bullish
  else if optGT nav middle then Signal.bullish
  else Signal.bearish

/-- CCI block, lines 816–824. -/
def cciSignal (cci : Option ℚ) : Signal :=
  if optGT cci (some 100) then Signal.bearish
  else if optLT cci (some (-100)) then Signal.bullish
  else Signal.neutral

/-- DMI block, lines 832–846: only trending (ADX>25) votes. -/
def dmiSignal (dip dim adx : Option ℚ) : Signal :=
  if optGT adx (some 25) then
    if optGT dip dim then Signal.bullish else Signal.bearish
  else Signal.neutral

/-- MFI block, lines 854–862. -/
def mfiSignal (mfi : Option ℚ) : Signal :=
  if optGT mfi (some 80) then Signal.bearish
  else if optLT mfi (some 20) then Signal.bullish
  else Signal.neutral

/-- BBI block, lines 870–880: always votes when present. -/
def bbiSignal (nav bbi : Option ℚ) : Signal :=
  if optGT nav bbi then Signal.bullish else Signal.bearish

/-- TRIX block, lines 888–896: always votes when present. -/
def trixSignal (trix : Option ℚ) : Signal :=
  if optGT trix (some 0) then Signal.bullish else Signal.bearish

/-- The per-indicator labels of the present blocks, in source order
(MACD, RSI, KDJ, BOLL, CCI, DMI, MFI, BBI, TRIX). -/
def signalsList (d : Latest) : List Signal :=
  (d.macd.map (fun p => macdSignal p.1 p.2)).toList ++
  (d.rsi.map (fun p => rsiSignal p.2)).toList ++
  (d.kdj.map (fun p => kdjSignal p.1 p.2.1 p.2.2)).toList ++
  (d.boll.map (fun p => bollSignal d.nav p.1 p.2.1 p.2.2)).toList ++
  (d.cci.map (fun v => cciSignal v)).toList ++
  (d.dmi.map (fun p => dmiSignal p.1 p.2.1 p.2.2)).toList ++
  (d.mfi.map (fun v => mfiSignal v)).toList ++
  (d.bbi.map (fun v => bbiSignal d.nav v)).toList ++
  (d.trix.map (fun v => trixSignal v)).toList

/-- One step of the `signals_bullish += 1` / `signals_bearish += 1`
accumulation. -/
def voteStep (acc : ℕ × ℕ) (s : Signal) : ℕ × ℕ :=
  match s with
  | Signal.bullish => (acc.1 + 1, acc.2)
  | Signal.bearish => (acc.1, acc.2 + 1)
  | Signal.neutral => acc

/-- The `(signals_bullish, signals_bearish)` counters after all
blocks have run. -/
def tallyVotes (l : List Signal) : ℕ × ℕ := l.foldl voteStep (0, 0)

/-- Lines 903–912: majority vote. -/
def overallSignal (d : Latest) : Signal :=
  let t := tallyVotes (signalsList d)
  if t.2 < t.1 then Signal.bullish
  else if t.1 < t.2 then Signal.bearish
  else Signal.neutral

/-- Lines 915–919: the RSI volatility flag — set only when a column
literally named `RSI14` is present and its latest value deviates from
50 by more than 30 (`abs` of NaN comparisons being `False`). -/
def rsiFlagCount (d : Latest) : ℕ :=
  match d.rsi with
  | some (w, val) =>
    if w = 14 then
      match val with
      | some r => if 30 < |r - 50| then 1 else 0
      | none => 0
    else 0
  | none => 0

/-- Lines 921–926: the ATR volatility flag — set when the latest ATR is
a number, positive, and above the fixed threshold 0.02. -/
def atrFlagCount (d : Latest) : ℕ :=
  match d.atr with
  | some (some a) => if 0 < a then (if 1 / 50 < a then 1 else 0) else 0
  | _ => 0

/-- Lines 928–933: two flags → high, one → medium, none → low. -/
def riskTier (d : Latest) : Risk :=
  if 2 ≤ rsiFlagCount d + atrFlagCount d then Risk.high
  else if rsiFlagCount d + atrFlagCount d = 1 then Risk.medium
  else Risk.low

structure Summary where
  overall_signal : Signal
  risk_level : Risk
deriving DecidableEq, Repr

/-- Embedding of `generate_technical_analysis_summary` (lines 697–939): `None` or
empty frame returns `None` (lines 708–709); otherwise the summary is
built from the latest row. -/
def generate_technical_analysis_summary
    (df : Option (List Latest)) : Option Summary :=
  match df with
  | none => none
  | some [] => none
  | some (r :: rs) =>
    let d := (r :: rs).getLast (List.cons_ne_nil r rs)
    some ⟨overallSignal d, riskTier d⟩

def rsiVolatilityFlag (d : Latest) : Prop :=
  ∃ r, d.rsi = some (14, some r) ∧ 30 < |r - 50|

def atrVolatilityFlag (d : Latest) : Prop :=
  ∃ a, d.atr = some (some a) ∧ 0 < a ∧ 1 / 50 < a

/-! ## `indicators.calculate_technical_indicators` (lines 14–111)

The body copies the frame and assigns indicator columns one after
another (`df_indicators[name] = ...`); each column is produced by a
pandas-ta kernel that can raise (e.g. a numerical issue or a missing
key).  The whole body is wrapped in a single try/except (lines 31, 109
–111): on any exception the function logs via `st.error` and returns
`df` — the ORIGINAL input frame, not the partially built copy.

The per-column kernels are external library calls, so the column
computations are a parameter: a list of `(column name, computation)`
pairs in assignment order, each computation either producing the
column values or raising (`Except.error`). -/

structure Frame where
  nav : List ℚ
  cols : List (String × List (Option ℚ))
deriving DecidableEq, Repr

/-- One indicator-column computation over the `nav` series: the column
values, or an exception. -/
def IndicatorComp : Type := List ℚ → Except Unit (List (Option ℚ))

/-- Sequential column assignment on the copied frame; the first
exception aborts the whole sequence. -/
def addCols (nav : List ℚ) :
    List (String × List (Option ℚ)) → List (String × IndicatorComp) →
      Except Unit (List (String × List (Option ℚ)))
  | acc, [] => Except.ok acc
  | acc, (n, f) :: rest =>
    match f nav with
    | Except.error e => Except.error e
    | Except.ok col => addCols nav (acc ++ [(n, col)]) rest

/-- Embedding of `calculate_technical_indicators`: `None`/empty input returns `None`
(lines 28–29); otherwise the indicator columns are assigned in order on
a copy, and any exception makes the function return the original input
frame unchanged (lines 109–111). -/
def calculate_technical_indicators (specs : List (String × IndicatorComp))
    (df : Option Frame) : Option Frame :=
  match df with
  | none => none
  | some f =>
    if f.nav = [] then none
    else
      match addCols f.nav f.cols specs with
      | Except.ok cols2 => some { f with cols := cols2 }
      | Except.error _ => some f

/-! ## Theorems -/

theorem cleanedRows_sorted (rows : List RawRow) :
    ((cleanedRows rows).map (fun r => r.date)).Pairwise (· ≤ ·) := by
  have hs : List.Pairwise dateLe (List.insertionSort dateLe rows) :=
    List.sorted_insertionSort dateLe rows
  have hf : List.Pairwise dateLe (cleanedRows rows) :=
    hs.sublist (List.filter_sublist _)
  exact (List.pairwise_map).mpr hf

theorem cleanedRows_dates_nodup (rows : List RawRow)
    (h : (rows.map (fun r => r.date)).Nodup) :
    ((cleanedRows rows).map (fun r => r.date)).Nodup := by
  have hperm : List.Perm (List.insertionSort dateLe rows) rows :=
    List.perm_insertionSort dateLe rows
  have hperm' : List.Perm ((List.insertionSort dateLe rows).map (fun r => r.date))
      (rows.map (fun r => r.date)) := hperm.map _
  have hnd : ((List.insertionSort dateLe rows).map (fun r => r.date)).Nodup :=
    (hperm'.nodup_iff).mpr h
  exact hnd.sublist ((List.filter_sublist _).map _)

theorem preprocessRows_eq (rows : List RawRow) (df : CanonDf)
    (h : preprocessRows rows = some df) :
    ∃ n0 rest, (cleanedRows rows).filterMap (fun r => r.nav) = n0 :: rest ∧
      df = ⟨(cleanedRows rows).map (fun r => r.date), n0 :: rest,
            (n0 :: rest).map (fun x => x / n0)⟩ := by
  unfold preprocessRows at h
  by_cases hr : rows = []
  · rw [if_pos hr] at h
    exact absurd h (by simp)
  · rw [if_neg hr] at h
    rcases heq : (cleanedRows rows).filterMap (fun r => r.nav) with _ | ⟨n0, rest⟩
    · rw [heq] at h
      exact absurd h (by simp)
    · rw [heq] at h
      exact ⟨n0, rest, heq, (Option.some.inj h).symm⟩

theorem preprocessRows_dates (rows : List RawRow) (df : CanonDf)
    (h : preprocessRows rows = some df) :
    df.dates = (cleanedRows rows).map (fun r => r.date) := by
  obtain ⟨n0, rest, -, hdf⟩ := preprocessRows_eq rows df h
  rw [hdf]

/-- C2 (amended): every frame returned by `preprocess_fund_data` has its
dates sorted in ascending (non-decreasing) order.  Normalization never
deduplicates dates, so duplicate dates can survive and the sequence need
not be strictly increasing; it is strictly increasing whenever the raw
input contains no repeated dates. -/
theorem preprocess_dates_sorted (raw : List RawRow) (df : CanonDf)
    (h : preprocess_fund_data (some raw) = some df) :
    df.dates.Pairwise (· ≤ ·) ∧
      ((raw.map (fun r => r.date)).Nodup → df.dates.Pairwise (· < ·)) := by
  have hd : df.dates = (cleanedRows raw).map (fun r => r.date) :=
    preprocessRows_dates raw df h
  constructor
  · rw [hd]
    exact cleanedRows_sorted raw
  · intro hnd
    rw [hd]
    have h1 := cleanedRows_sorted raw
    have h2 := cleanedRows_dates_nodup raw hnd
    exact (h1.and h2).imp (fun hab => lt_of_le_of_ne hab.1 hab.2)

/-- Witness for `preprocess_dates_sorted` at a concrete two-row input
with distinct dates arriving out of order. -/
theorem preprocess_dates_sorted_witness :
    ((⟨[0, 1], [3, 2], [1, 2/3]⟩ : CanonDf).dates.Pairwise (· ≤ ·) ∧
      ((([⟨1, some 2⟩, ⟨0, some 3⟩] : List RawRow).map (fun r => r.date)).Nodup →
        (⟨[0, 1], [3, 2], [1, 2/3]⟩ : CanonDf).dates.Pairwise (· < ·))) :=
  preprocess_dates_sorted [⟨1, some 2⟩, ⟨0, some 3⟩]
    ⟨[0, 1], [3, 2], [1, 2/3]⟩ (by
      show preprocessRows _ = _
      norm_num [preprocessRows, cleanedRows, dateLe, List.filterMap]
      intro h
      exact absurd h (by simp))

/-- C2 (counterexample): on a raw input with a repeated date both rows
survive normalization, so the output date sequence `[5, 5]` is not
strictly increasing and has a duplicate — refuting the claim that the
dates of every normalized series are strictly increasing and unique. -/
theorem preprocess_dup_dates_counterexample :
    preprocess_fund_data (some [⟨5, some 1⟩, ⟨5, some 2⟩]) =
      some ⟨[5, 5], [1, 2], [1, 2]⟩ ∧
    ¬ (([5, 5] : List ℕ).Pairwise (· < ·)) := by
  constructor
  · show preprocessRows _ = _
    norm_num [preprocessRows, cleanedRows, dateLe, List.filterMap]
    intro h
    exact absurd h (by simp)
  · decide

/-- C7: for every frame produced by `preprocess_fund_data` whose prices
are positive, the `cum_nav` column equals the `nav` column divided
pointwise by its first entry, and its first entry is exactly 1. -/
theorem preprocess_cumulative_normalized (raw : List RawRow) (df : CanonDf)
    (h : preprocess_fund_data (some raw) = some df)
    (hpos : ∀ x ∈ df.nav, 0 < x) :
    ∃ n0, df.nav.head? = some n0 ∧
      df.cum_nav = df.nav.map (fun x => x / n0) ∧
      df.cum_nav.head? = some 1 := by
  obtain ⟨n0, rest, -, hdf⟩ := preprocessRows_eq raw df h
  subst hdf
  refine ⟨n0, rfl, rfl, ?_⟩
  have hn0 : (0 : ℚ) < n0 := hpos n0 (by simp)
  simp [div_self (ne_of_gt hn0)]

/-- Witness for `preprocess_cumulative_normalized` at a concrete
two-row input with positive prices. -/
theorem preprocess_cumulative_normalized_witness :
    ∃ n0, (⟨[0, 1], [2, 4], [1, 2]⟩ : CanonDf).nav.head? = some n0 ∧
      (⟨[0, 1], [2, 4], [1, 2]⟩ : CanonDf).cum_nav =
        (⟨[0, 1], [2, 4], [1, 2]⟩ : CanonDf).nav.map (fun x => x / n0) ∧
      (⟨[0, 1], [2, 4], [1, 2]⟩ : CanonDf).cum_nav.head? = some 1 :=
  preprocess_cumulative_normalized [⟨0, some 2⟩, ⟨1, some 4⟩]
    ⟨[0, 1], [2, 4], [1, 2]⟩
    (by
      show preprocessRows _ = _
      norm_num [preprocessRows, cleanedRows, dateLe, List.filterMap]
      intro h
      exact absurd h (by simp))
    (by norm_num)

theorem expandingMaxAux_length (m : ℚ) (c : List ℚ) :
    (expandingMaxAux m c).length = c.length := by
  induction c generalizing m with
  | nil => rfl
  | cons x xs ih => simp [expandingMaxAux, ih]

theorem le_expandingMaxAux (c : List ℚ) :
    ∀ (m : ℚ), ∀ p ∈ c.zip (expandingMaxAux m c), p.1 ≤ p.2 := by
  induction c with
  | nil => intro m p hp; simp [expandingMaxAux] at hp
  | cons x xs ih =>
    intro m p hp
    simp only [expandingMaxAux, List.zip_cons_cons, List.mem_cons] at hp
    rcases hp with hp | hp
    · subst hp; exact le_max_right m x
    · exact ih (max m x) p hp

theorem pos_expandingMaxAux (c : List ℚ) :
    ∀ (m : ℚ), 0 < m → (∀ x ∈ c, 0 < x) →
      ∀ y ∈ expandingMaxAux m c, 0 < y := by
  induction c with
  | nil => intro m _ _ y hy; simp [expandingMaxAux] at hy
  | cons x xs ih =>
    intro m hm hc y hy
    simp only [expandingMaxAux, List.mem_cons] at hy
    rcases hy with hy | hy
    · subst hy; exact lt_max_of_lt_left hm
    · exact ih (max m x) (lt_max_of_lt_left hm)
        (fun z hz => hc z (List.mem_cons_of_mem x hz)) y hy

theorem expandingMaxAux_eq_self (c : List ℚ) :
    ∀ (m : ℚ), expandingMaxAux m c = c ↔ List.Chain (· ≤ ·) m c := by
  induction c with
  | nil => intro m; simp [expandingMaxAux]
  | cons x xs ih =>
    intro m
    simp only [expandingMaxAux, List.cons.injEq, List.chain_cons]
    constructor
    · rintro ⟨h1, h2⟩
      have hm : m ≤ x := by
        rw [max_eq_right_iff] at h1
        · exact h1
      rw [max_eq_right hm] at h2
      exact ⟨hm, (ih x).mp h2⟩
    · rintro ⟨hm, h2⟩
      refine ⟨max_eq_right hm, ?_⟩
      rw [max_eq_right hm]
      exact (ih x).mpr h2

theorem expandingMax_eq_self (c : List ℚ) :
    expandingMax c = c ↔ c.Chain' (· ≤ ·) := by
  cases c with
  | nil => simp [expandingMax]
  | cons x xs =>
    simp only [expandingMax, List.cons.injEq, true_and]
    rw [expandingMaxAux_eq_self]
    exact Iff.rfl

theorem zip_pointwise_eq (l1 : List ℚ) :
    ∀ (l2 : List ℚ), l1.length = l2.length →
      (∀ p ∈ l1.zip l2, p.1 = p.2) → l1 = l2 := by
  induction l1 with
  | nil =>
    intro l2 hl _
    cases l2 with
    | nil => rfl
    | cons y ys => simp at hl
  | cons x xs ih =>
    intro l2 hl hp
    cases l2 with
    | nil => simp at hl
    | cons y ys =>
      have hxy : x = y := hp (x, y) (by simp)
      have : xs = ys := by
        refine ih ys (by simpa using hl) ?_
        intro p hpp
        exact hp p (by simp [hpp])
      rw [hxy, this]

theorem foldl_min_le (l : List ℚ) :
    ∀ (a : ℚ), l.foldl min a ≤ a ∧ ∀ y ∈ l, l.foldl min a ≤ y := by
  induction l with
  | nil => intro a; simp
  | cons x xs ih =>
    intro a
    simp only [List.foldl_cons]
    refine ⟨le_trans (ih (min a x)).1 (min_le_left a x), ?_⟩
    intro y hy
    rcases List.mem_cons.mp hy with h | h
    · rw [h]
      exact le_trans (ih (min a x)).1 (min_le_right a x)
    · exact (ih (min a x)).2 y h

theorem foldl_min_mem (l : List ℚ) :
    ∀ (a : ℚ), l.foldl min a ∈ a :: l := by
  induction l with
  | nil => intro a; simp
  | cons x xs ih =>
    intro a
    simp only [List.foldl_cons]
    rcases List.mem_cons.mp (ih (min a x)) with h | h
    · rw [h]
      rcases min_choice a x with hm | hm <;> rw [hm] <;> simp
    · exact List.mem_cons_of_mem a (List.mem_cons_of_mem x h)

theorem expandingMax_length (c : List ℚ) :
    (expandingMax c).length = c.length := by
  cases c with
  | nil => rfl
  | cons x xs => simp [expandingMax, expandingMaxAux_length]

theorem zip_self_eq (c : List ℚ) : ∀ p ∈ c.zip c, p.1 = p.2 := by
  induction c with
  | nil => intro p hp; simp at hp
  | cons x xs ih =>
    intro p hp
    simp only [List.zip_cons_cons, List.mem_cons] at hp
    rcases hp with rfl | hp
    · rfl
    · exact ih p hp

theorem le_expandingMax (c : List ℚ) :
    ∀ p ∈ c.zip (expandingMax c), p.1 ≤ p.2 := by
  cases c with
  | nil => intro p hp; simp [expandingMax] at hp
  | cons x xs =>
    intro p hp
    simp only [expandingMax, List.zip_cons_cons, List.mem_cons] at hp
    rcases hp with rfl | hp
    · exact le_refl x
    · exact le_expandingMaxAux xs x p hp

theorem pos_expandingMax (c : List ℚ) (hpos : ∀ x ∈ c, 0 < x) :
    ∀ y ∈ expandingMax c, 0 < y := by
  cases c with
  | nil => intro y hy; simp [expandingMax] at hy
  | cons x xs =>
    intro y hy
    simp only [expandingMax, List.mem_cons] at hy
    rcases hy with rfl | hy
    · exact hpos y (by simp)
    · exact pos_expandingMaxAux xs x (hpos x (by simp))
        (fun z hz => hpos z (List.mem_cons_of_mem x hz)) y hy

/-- C3: for every non-empty positive cumulative series, the max
drawdown of `calculate_performance_metrics` is ≤ 0, and it is 0
exactly when the cumulative series is non-decreasing throughout. -/
theorem max_drawdown_nonpos_iff_monotone (c : List ℚ) (hne : c ≠ [])
    (hpos : ∀ x ∈ c, 0 < x) :
    max_drawdown c ≤ 0 ∧
      (max_drawdown c = 0 ↔ c.Chain' (· ≤ ·)) := by
  have hlen : c.length = (expandingMax c).length := (expandingMax_length c).symm
  have hle : ∀ p ∈ c.zip (expandingMax c), p.1 ≤ p.2 := le_expandingMax c
  have hp2 : ∀ p ∈ c.zip (expandingMax c), 0 < p.2 := by
    intro p hp
    exact pos_expandingMax c hpos p.2 (List.of_mem_zip hp).2
  have hdd_np : ∀ y ∈ drawdownList c, y ≤ 0 := by
    intro y hy
    simp only [drawdownList, List.mem_map] at hy
    obtain ⟨p, hp, rfl⟩ := hy
    have h1 := hle p hp
    have h2 := hp2 p hp
    rw [div_le_iff₀ h2, zero_mul]
    linarith
  obtain ⟨d0, drest, hdd⟩ : ∃ d0 drest, drawdownList c = d0 :: drest := by
    cases c with
    | nil => exact absurd rfl hne
    | cons x xs => exact ⟨_, _, rfl⟩
  have hmd : max_drawdown c = drest.foldl min d0 := by
    simp [max_drawdown, hdd, listMinimum]
  have hmem : drest.foldl min d0 ∈ drawdownList c := by
    rw [hdd]
    exact foldl_min_mem drest d0
  have hm_le : ∀ y ∈ drawdownList c, drest.foldl min d0 ≤ y := by
    intro y hy
    rw [hdd] at hy
    rcases List.mem_cons.mp hy with hy' | hy'
    · rw [hy']
      exact (foldl_min_le drest d0).1
    · exact (foldl_min_le drest d0).2 y hy'
  have hmle0 : max_drawdown c ≤ 0 := hmd ▸ hdd_np _ hmem
  refine ⟨hmle0, ?_, ?_⟩
  · intro h0
    rw [hmd] at h0
    have hall : ∀ p ∈ c.zip (expandingMax c), p.1 = p.2 := by
      intro p hp
      have hy : (p.1 - p.2) / p.2 ∈ drawdownList c := by
        simp only [drawdownList, List.mem_map]
        exact ⟨p, hp, rfl⟩
      have h1 : (p.1 - p.2) / p.2 ≤ 0 := hdd_np _ hy
      have h2 : (0 : ℚ) ≤ (p.1 - p.2) / p.2 := by
        rw [← h0]
        exact hm_le _ hy
      have hz : (p.1 - p.2) / p.2 = 0 := le_antisymm h1 h2
      rcases div_eq_zero_iff.mp hz with hnum | hden
      · exact sub_eq_zero.mp hnum
      · exact absurd hden (ne_of_gt (hp2 p hp))
    have hceq : c = expandingMax c := zip_pointwise_eq c _ hlen hall
    exact (expandingMax_eq_self c).mp hceq.symm
  · intro hchain
    have hem : expandingMax c = c := (expandingMax_eq_self c).mpr hchain
    have hall0 : ∀ y ∈ drawdownList c, y = 0 := by
      intro y hy
      simp only [drawdownList, List.mem_map] at hy
      obtain ⟨p, hp, rfl⟩ := hy
      rw [hem] at hp
      rw [zip_self_eq c p hp, sub_self, zero_div]
    rw [hmd]
    exact hall0 _ hmem

/-- Witness for `max_drawdown_nonpos_iff_monotone` on the concrete
positive series `[1, 2]`. -/
theorem max_drawdown_nonpos_iff_monotone_witness :
    max_drawdown [1, 2] ≤ 0 ∧
      (max_drawdown [1, 2] = 0 ↔ ([1, 2] : List ℚ).Chain' (· ≤ ·)) :=
  max_drawdown_nonpos_iff_monotone [1, 2] (by simp) (by norm_num)

theorem optGT_asymm (a b : Option ℚ) :
    ¬(optGT a b = true ∧ optLT a b = true) := by
  cases a <;> cases b <;> simp [optGT, optLT]
  intro h1
  exact le_of_lt h1

theorem gcond_iff (p c : Option ℚ × Option ℚ) :
    (optLE p.1 p.2 && optGT c.1 c.2) = true ↔
      ∃ a b x y, p = (some a, some b) ∧ c = (some x, some y) ∧
        a ≤ b ∧ y < x := by
  obtain ⟨p1, p2⟩ := p
  obtain ⟨c1, c2⟩ := c
  cases p1 <;> cases p2 <;> cases c1 <;> cases c2 <;>
    simp [optLE, optGT, and_assoc]

theorem dcond_iff (p c : Option ℚ × Option ℚ) :
    (optGE p.1 p.2 && optLT c.1 c.2) = true ↔
      ∃ a b x y, p = (some a, some b) ∧ c = (some x, some y) ∧
        b ≤ a ∧ x < y := by
  obtain ⟨p1, p2⟩ := p
  obtain ⟨c1, c2⟩ := c
  cases p1 <;> cases p2 <;> cases c1 <;> cases c2 <;>
    simp [optGE, optLT, and_assoc]

theorem gcond_dcond_exclusive (p c : Option ℚ × Option ℚ)
    (hg : (optLE p.1 p.2 && optGT c.1 c.2) = true) :
    ¬((optGE p.1 p.2 && optLT c.1 c.2) = true) := by
  intro hd
  rw [Bool.and_eq_true] at hg hd
  exact optGT_asymm c.1 c.2 ⟨hg.2, hd.2⟩

theorem detectAux_fst (i : ℕ) (prev r : Option ℚ × Option ℚ)
    (rs : List (Option ℚ × Option ℚ)) :
    (detectCrossesAux i prev (r :: rs)).1 =
      if (optLE prev.1 prev.2 && optGT r.1 r.2) = true
        then i :: (detectCrossesAux (i + 1) r rs).1
        else (detectCrossesAux (i + 1) r rs).1 := by
  by_cases h1 : (optLE prev.1 prev.2 && optGT r.1 r.2) = true <;>
    by_cases h2 : (optGE prev.1 prev.2 && optLT r.1 r.2) = true <;>
    simp [detectCrossesAux, h1, h2]

theorem detectAux_snd (i : ℕ) (prev r : Option ℚ × Option ℚ)
    (rs : List (Option ℚ × Option ℚ)) :
    (detectCrossesAux i prev (r :: rs)).2 =
      if (optGE prev.1 prev.2 && optLT r.1 r.2) = true
        then i :: (detectCrossesAux (i + 1) r rs).2
        else (detectCrossesAux (i + 1) r rs).2 := by
  by_cases h1 : (optLE prev.1 prev.2 && optGT r.1 r.2) = true
  · rw [if_neg (gcond_dcond_exclusive prev r h1)]
    simp [detectCrossesAux, h1]
  · by_cases h2 : (optGE prev.1 prev.2 && optLT r.1 r.2) = true <;>
      simp [detectCrossesAux, h1, h2]

theorem detectAux_mem_generic
    (cond : (Option ℚ × Option ℚ) → (Option ℚ × Option ℚ) → Bool)
    (comp : ℕ → (Option ℚ × Option ℚ) → List (Option ℚ × Option ℚ) → List ℕ)
    (hstep : ∀ i prev r rs, comp i prev (r :: rs) =
      if cond prev r = true then i :: comp (i + 1) r rs else comp (i + 1) r rs)
    (hnil : ∀ i prev, comp i prev [] = []) :
    ∀ (rs : List (Option ℚ × Option ℚ)) (prev : Option ℚ × Option ℚ) (i j : ℕ),
      j ∈ comp i prev rs ↔
        ∃ k p c, (prev :: rs).get? k = some p ∧ rs.get? k = some c ∧
          j = i + k ∧ cond p c = true := by
  intro rs
  induction rs with
  | nil =>
    intro prev i j
    rw [hnil]
    simp
  | cons r rs ih =>
    intro prev i j
    rw [hstep]
    by_cases hc : cond prev r = true
    · rw [if_pos hc]
      simp only [List.mem_cons]
      constructor
      · rintro (rfl | hj)
        · exact ⟨0, prev, r, rfl, rfl, (Nat.add_zero j).symm, hc⟩
        · obtain ⟨k, p, c, h1, h2, h3, h4⟩ := (ih r (i + 1) j).mp hj
          exact ⟨k + 1, p, c, by simpa using h1, by simpa using h2, by omega, h4⟩
      · rintro ⟨k, p, c, h1, h2, h3, h4⟩
        cases k with
        | zero =>
          left
          omega
        | succ k =>
          right
          exact (ih r (i + 1) j).mpr
            ⟨k, p, c, by simpa using h1, by simpa using h2, by omega, h4⟩
    · rw [if_neg hc]
      constructor
      · intro hj
        obtain ⟨k, p, c, h1, h2, h3, h4⟩ := (ih r (i + 1) j).mp hj
        exact ⟨k + 1, p, c, by simpa using h1, by simpa using h2, by omega, h4⟩
      · rintro ⟨k, p, c, h1, h2, h3, h4⟩
        cases k with
        | zero =>
          simp only [List.get?_cons_zero] at h1 h2
          injection h1 with h1'
          injection h2 with h2'
          rw [← h1', ← h2'] at h4
          exact absurd h4 hc
        | succ k =>
          exact (ih r (i + 1) j).mpr
            ⟨k, p, c, by simpa using h1, by simpa using h2, by omega, h4⟩

/-- C4: an index `i` is a golden-cross event exactly when both rows
`i-1` and `i` carry defined (non-NaN) short/long values with
`short[i-1] ≤ long[i-1]` and `short[i] > long[i]`; a death-cross event
exactly under the mirror condition; a pair touching an undefined value
emits no event (definedness is part of each condition); and no index is
both a golden and a death cross. -/
theorem detect_crosses_characterization
    (rows : List (Option ℚ × Option ℚ)) (i : ℕ) :
    (i ∈ (detect_golden_cross_death_cross (some rows)).1 ↔
      ∃ a b x y, 1 ≤ i ∧ rows.get? (i - 1) = some (some a, some b) ∧
        rows.get? i = some (some x, some y) ∧ a ≤ b ∧ y < x) ∧
    (i ∈ (detect_golden_cross_death_cross (some rows)).2 ↔
      ∃ a b x y, 1 ≤ i ∧ rows.get? (i - 1) = some (some a, some b) ∧
        rows.get? i = some (some x, some y) ∧ b ≤ a ∧ x < y) ∧
    ¬(i ∈ (detect_golden_cross_death_cross (some rows)).1 ∧
      i ∈ (detect_golden_cross_death_cross (some rows)).2) := by
  have hgold := detectAux_mem_generic
    (fun prev r => optLE prev.1 prev.2 && optGT r.1 r.2)
    (fun i prev rs => (detectCrossesAux i prev rs).1)
    (fun i prev r rs => detectAux_fst i prev r rs)
    (fun _ _ => rfl)
  have hdeath := detectAux_mem_generic
    (fun prev r => optGE prev.1 prev.2 && optLT r.1 r.2)
    (fun i prev rs => (detectCrossesAux i prev rs).2)
    (fun i prev r rs => detectAux_snd i prev r rs)
    (fun _ _ => rfl)
  cases rows with
  | nil =>
    refine ⟨by simp [detect_golden_cross_death_cross, detectCrossRows], ?_, ?_⟩
    · simp [detect_golden_cross_death_cross, detectCrossRows]
    · simp [detect_golden_cross_death_cross, detectCrossRows]
  | cons r rs =>
    have e1 : (detect_golden_cross_death_cross (some (r :: rs))).1 =
        (detectCrossesAux 1 r rs).1 := rfl
    have e2 : (detect_golden_cross_death_cross (some (r :: rs))).2 =
        (detectCrossesAux 1 r rs).2 := rfl
    have hG : i ∈ (detect_golden_cross_death_cross (some (r :: rs))).1 ↔
        ∃ a b x y, 1 ≤ i ∧ (r :: rs).get? (i - 1) = some (some a, some b) ∧
          (r :: rs).get? i = some (some x, some y) ∧ a ≤ b ∧ y < x := by
      rw [e1, hgold rs r 1 i]
      constructor
      · rintro ⟨k, p, c, h1, h2, h3, h4⟩
        obtain ⟨a, b, x, y, hp, hcc, hab, hyx⟩ := (gcond_iff p c).mp h4
        subst hp
        subst hcc
        refine ⟨a, b, x, y, by omega, ?_, ?_, hab, hyx⟩
        · have hk : i - 1 = k := by omega
          rw [hk]
          exact h1
        · have hk : i = k + 1 := by omega
          rw [hk]
          simpa using h2
      · rintro ⟨a, b, x, y, h1i, h1, h2, hab, hyx⟩
        refine ⟨i - 1, (some a, some b), (some x, some y), h1, ?_, by omega,
          (gcond_iff _ _).mpr ⟨a, b, x, y, rfl, rfl, hab, hyx⟩⟩
        have hk : i = (i - 1) + 1 := by omega
        rw [hk] at h2
        simpa using h2
    have hD : i ∈ (detect_golden_cross_death_cross (some (r :: rs))).2 ↔
        ∃ a b x y, 1 ≤ i ∧ (r :: rs).get? (i - 1) = some (some a, some b) ∧
          (r :: rs).get? i = some (some x, some y) ∧ b ≤ a ∧ x < y := by
      rw [e2, hdeath rs r 1 i]
      constructor
      · rintro ⟨k, p, c, h1, h2, h3, h4⟩
        obtain ⟨a, b, x, y, hp, hcc, hab, hyx⟩ := (dcond_iff p c).mp h4
        subst hp
        subst hcc
        refine ⟨a, b, x, y, by omega, ?_, ?_, hab, hyx⟩
        · have hk : i - 1 = k := by omega
          rw [hk]
          exact h1
        · have hk : i = k + 1 := by omega
          rw [hk]
          simpa using h2
      · rintro ⟨a, b, x, y, h1i, h1, h2, hab, hyx⟩
        refine ⟨i - 1, (some a, some b), (some x, some y), h1, ?_, by omega,
          (dcond_iff _ _).mpr ⟨a, b, x, y, rfl, rfl, hab, hyx⟩⟩
        have hk : i = (i - 1) + 1 := by omega
        rw [hk] at h2
        simpa using h2
    refine ⟨hG, hD, ?_⟩
    rintro ⟨hg', hd'⟩
    obtain ⟨a, b, x, y, -, -, h2, -, hyx⟩ := hG.mp hg'
    obtain ⟨a', b', x', y', -, -, h2', -, hxy⟩ := hD.mp hd'
    rw [h2] at h2'
    injection h2' with h2''
    injection h2'' with hx hy
    injection hx with hx'
    injection hy with hy'
    rw [← hx', ← hy'] at hxy
    exact absurd hxy (not_lt.mpr (le_of_lt hyx))

/-- C5: in any metrics record returned by
`calculate_performance_metrics`, the Sharpe ratio is the sentinel 0
when the annual volatility is 0 and `(annual_return - 0.03) /
annual_volatility` otherwise, and the Calmar ratio is 0 when the max
drawdown is 0 and `annual_return / |max_drawdown|` otherwise.  The
hypothesis `0 ≤ annual_volatility` reflects that a standard deviation
times √252 is non-negative. -/
theorem performance_zero_denominator_sentinels (K : NumericKernels)
    (df : Option (List FundRow)) (bdf : Option (List BenchRow))
    (m : PerfMetrics)
    (h : calculate_performance_metrics K df bdf = some m)
    (hvol : 0 ≤ m.annual_volatility) :
    (m.annual_volatility = 0 → PerfMetrics.sharpe_ratio m = 0) ∧
    (m.annual_volatility ≠ 0 →
      PerfMetrics.sharpe_ratio m = (m.annual_return - 3 / 100) / m.annual_volatility) ∧
    (m.max_drawdown = 0 → PerfMetrics.calmar_ratio m = 0) ∧
    (m.max_drawdown ≠ 0 →
      PerfMetrics.calmar_ratio m = m.annual_return / |m.max_drawdown|) := by
  match df with
  | none => simp [calculate_performance_metrics] at h
  | some [] => simp [calculate_performance_metrics] at h
  | some (r0 :: rest) =>
    have hm := Option.some.inj h
    have hs : PerfMetrics.sharpe_ratio m = sharpe_ratio m.annual_return m.annual_volatility := by
      rw [← hm]
    have hc : PerfMetrics.calmar_ratio m = calmar_ratio m.annual_return m.max_drawdown := by
      rw [← hm]
    refine ⟨?_, ?_, ?_, ?_⟩
    · intro h0
      simp [hs, sharpe_ratio, h0]
    · intro h0
      have hlt : 0 < m.annual_volatility := lt_of_le_of_ne hvol (Ne.symm h0)
      simp [hs, sharpe_ratio, hlt]
    · intro h0
      simp [hc, calmar_ratio, h0]
    · intro h0
      simp [hc, calmar_ratio, h0]

/-- Witness for `performance_zero_denominator_sentinels` on a concrete
one-row fund frame with zero kernels. -/
theorem performance_zero_denominator_sentinels_witness :
    (sentinelWitnessMetrics.annual_volatility = 0 →
      PerfMetrics.sharpe_ratio sentinelWitnessMetrics = 0) ∧
    (sentinelWitnessMetrics.annual_volatility ≠ 0 →
      PerfMetrics.sharpe_ratio sentinelWitnessMetrics =
        (sentinelWitnessMetrics.annual_return - 3 / 100) /
          sentinelWitnessMetrics.annual_volatility) ∧
    (sentinelWitnessMetrics.max_drawdown = 0 →
      PerfMetrics.calmar_ratio sentinelWitnessMetrics = 0) ∧
    (sentinelWitnessMetrics.max_drawdown ≠ 0 →
      PerfMetrics.calmar_ratio sentinelWitnessMetrics =
        sentinelWitnessMetrics.annual_return /
          |sentinelWitnessMetrics.max_drawdown|) :=
  performance_zero_denominator_sentinels zeroKernels (some [⟨0, 1, 1⟩]) none
    sentinelWitnessMetrics
    (by
      show some _ = _
      norm_num [sentinelWitnessMetrics, max_drawdown, drawdownList,
        expandingMax, expandingMaxAux, listMinimum, sharpe_ratio,
        calmar_ratio, pct_change, zeroKernels])
    (by norm_num [sentinelWitnessMetrics])

/-- C6: when a non-empty benchmark frame shares no dates with the
non-empty fund frame, `calculate_performance_metrics` still returns a
metrics record (no error), with `beta`, `information_ratio` and
`tracking_error` all absent and the six base statistics populated. -/
theorem performance_disjoint_benchmark (K : NumericKernels)
    (rows : List FundRow) (brows : List BenchRow) (hrows : rows ≠ [])
    (hdisj : ∀ r ∈ rows, ∀ b ∈ brows, r.date ≠ b.trade_date) :
    ∃ m, calculate_performance_metrics K (some rows) (some brows) = some m ∧
      m.beta = none ∧ PerfMetrics.information_ratio m = none ∧ m.tracking_error = none := by
  cases rows with
  | nil => exact absurd rfl hrows
  | cons r0 rest =>
    have hfa : (r0 :: rest).filter
        (fun r => brows.any (fun b => b.trade_date = r.date)) = [] := by
      rw [List.filter_eq_nil_iff]
      intro a ha
      rw [Bool.not_eq_true, List.any_eq_false]
      intro b hb
      simp only [decide_eq_true_eq]
      exact fun hbe => hdisj a ha b hb hbe.symm
    have hrel : (if brows = []
        then ((none : Option ℚ), (none : Option ℚ), (none : Option ℚ))
        else relative_metrics K (r0 :: rest) brows) = (none, none, none) := by
      by_cases hb : brows = []
      · rw [if_pos hb]
      · rw [if_neg hb]
        unfold relative_metrics
        rw [hfa]
        simp
    refine ⟨_, rfl, ?_, ?_, ?_⟩
    · show (if brows = []
          then ((none : Option ℚ), (none : Option ℚ), (none : Option ℚ))
          else relative_metrics K (r0 :: rest) brows).1 = none
      rw [hrel]
    · show (if brows = []
          then ((none : Option ℚ), (none : Option ℚ), (none : Option ℚ))
          else relative_metrics K (r0 :: rest) brows).2.1 = none
      rw [hrel]
    · show (if brows = []
          then ((none : Option ℚ), (none : Option ℚ), (none : Option ℚ))
          else relative_metrics K (r0 :: rest) brows).2.2 = none
      rw [hrel]

/-- Witness for `performance_disjoint_benchmark`: a one-row fund frame
dated 0 against a one-row benchmark dated 1. -/
theorem performance_disjoint_benchmark_witness :
    ∃ m, calculate_performance_metrics zeroKernels
        (some [⟨0, 1, 1⟩]) (some [⟨1, 1⟩]) = some m ∧
      m.beta = none ∧ PerfMetrics.information_ratio m = none ∧ m.tracking_error = none :=
  performance_disjoint_benchmark zeroKernels [⟨0, 1, 1⟩] [⟨1, 1⟩]
    (by simp)
    (by
      intro r hr b hb
      simp only [List.mem_singleton] at hr hb
      subst hr
      subst hb
      decide)

theorem voteStep_foldl (l : List Signal) :
    ∀ acc : ℕ × ℕ, l.foldl voteStep acc =
      (acc.1 + l.count Signal.bullish, acc.2 + l.count Signal.bearish) := by
  induction l with
  | nil => intro acc; simp
  | cons s ss ih =>
    intro acc
    rw [List.foldl_cons, ih]
    cases s <;> simp [voteStep, List.count_cons] <;> omega

theorem tallyVotes_eq_counts (l : List Signal) :
    tallyVotes l = (l.count Signal.bullish, l.count Signal.bearish) := by
  rw [tallyVotes, voteStep_foldl]
  simp

/-- C8: the bullish/bearish counters equal the number of bullish resp.
bearish per-indicator labels (each non-neutral label is exactly one
vote, neutral labels vote for neither), and the overall signal is
bullish/bearish/neutral exactly according to which counter is
larger. -/
theorem overall_signal_majority_vote (d : Latest) :
    (tallyVotes (signalsList d)).1 = (signalsList d).count Signal.bullish ∧
    (tallyVotes (signalsList d)).2 = (signalsList d).count Signal.bearish ∧
    (overallSignal d = Signal.bullish ↔
      (signalsList d).count Signal.bearish <
        (signalsList d).count Signal.bullish) ∧
    (overallSignal d = Signal.bearish ↔
      (signalsList d).count Signal.bullish <
        (signalsList d).count Signal.bearish) ∧
    (overallSignal d = Signal.neutral ↔
      (signalsList d).count Signal.bullish =
        (signalsList d).count Signal.bearish) := by
  have ht := tallyVotes_eq_counts (signalsList d)
  have hov : overallSignal d =
      (if (signalsList d).count Signal.bearish <
            (signalsList d).count Signal.bullish then Signal.bullish
       else if (signalsList d).count Signal.bullish <
            (signalsList d).count Signal.bearish then Signal.bearish
       else Signal.neutral) := by
    simp only [overallSignal, ht]
  refine ⟨by rw [ht], by rw [ht], ?_, ?_, ?_⟩ <;> rw [hov] <;>
    split_ifs with h1 h2 <;> simp <;> omega

theorem rsiFlagCount_one_iff (d : Latest) :
    rsiFlagCount d = 1 ↔ rsiVolatilityFlag d := by
  rcases hr : d.rsi with - | ⟨w, val⟩
  · simp [rsiFlagCount, hr, rsiVolatilityFlag]
  · rcases val with - | r
    · simp [rsiFlagCount, hr, rsiVolatilityFlag]
    · by_cases hw : w = 14
      · subst hw
        by_cases hdev : 30 < |r - 50|
        · simp [rsiFlagCount, hr, rsiVolatilityFlag, hdev]
        · simp [rsiFlagCount, hr, rsiVolatilityFlag, hdev]
      · simp [rsiFlagCount, hr, rsiVolatilityFlag, hw]

theorem rsiFlagCount_le_one (d : Latest) :
    rsiFlagCount d = 0 ∨ rsiFlagCount d = 1 := by
  rcases hr : d.rsi with - | ⟨w, val⟩
  · simp [rsiFlagCount, hr]
  · rcases val with - | r
    · simp [rsiFlagCount, hr]
    · by_cases hw : w = 14 <;> by_cases hdev : 30 < |r - 50| <;>
        simp [rsiFlagCount, hr, hw, hdev]

theorem atrFlagCount_one_iff (d : Latest) :
    atrFlagCount d = 1 ↔ atrVolatilityFlag d := by
  rcases ha : d.atr with - | v
  · simp [atrFlagCount, ha, atrVolatilityFlag]
  · rcases v with - | a
    · simp [atrFlagCount, ha, atrVolatilityFlag]
    · by_cases h0 : (0 : ℚ) < a
      · by_cases ht : (1 : ℚ) / 50 < a
        · simp [atrFlagCount, ha, atrVolatilityFlag, h0, ht]
        · simp [atrFlagCount, ha, atrVolatilityFlag, h0, ht]
      · simp [atrFlagCount, ha, atrVolatilityFlag, h0]

theorem atrFlagCount_le_one (d : Latest) :
    atrFlagCount d = 0 ∨ atrFlagCount d = 1 := by
  rcases ha : d.atr with - | v
  · simp [atrFlagCount, ha]
  · rcases v with - | a
    · simp [atrFlagCount, ha]
    · by_cases h0 : (0 : ℚ) < a <;> by_cases ht : (1 : ℚ) / 50 < a <;>
        simp [atrFlagCount, ha, h0, ht] <;>
        exact le_or_lt a 50⁻¹

/-- C9 (amended): the risk tier is derived from two volatility flags,
but the RSI flag is tied to the literal column `RSI14`: it is set only
when the table's RSI window is 14 and the latest value deviates from 50
by more than 30; for any other configured RSI window it is never set.
The ATR flag is set when the latest ATR exceeds 0.02.  The tier is high
iff both flags are set, medium iff exactly one, low iff none. -/
theorem risk_tier_characterization (d : Latest) :
    (riskTier d = Risk.high ↔ rsiVolatilityFlag d ∧ atrVolatilityFlag d) ∧
    (riskTier d = Risk.medium ↔
      ((rsiVolatilityFlag d ∧ ¬atrVolatilityFlag d) ∨
       (¬rsiVolatilityFlag d ∧ atrVolatilityFlag d))) ∧
    (riskTier d = Risk.low ↔
      ¬rsiVolatilityFlag d ∧ ¬atrVolatilityFlag d) := by
  have hf1 : rsiVolatilityFlag d ↔ rsiFlagCount d = 1 :=
    (rsiFlagCount_one_iff d).symm
  have hf2 : atrVolatilityFlag d ↔ atrFlagCount d = 1 :=
    (atrFlagCount_one_iff d).symm
  rcases rsiFlagCount_le_one d with h1 | h1 <;>
    rcases atrFlagCount_le_one d with h2 | h2 <;>
    simp [riskTier, h1, h2, hf1, hf2]

/-- C9 (counterexample): a table whose RSI column has window 7 with
latest value 100 (deviation 50 > 30) and no ATR column.  The claim
predicts one volatility flag and hence a medium risk tier for this
configured RSI window, but the code checks only the literal `RSI14`
column and yields the low tier. -/
theorem risk_tier_rsi_window_counterexample :
    riskTier ⟨none, none, some (7, some 100), none, none, none, none,
      none, none, none, none⟩ = Risk.low ∧
    (30 : ℚ) < |(100 : ℚ) - 50| := by
  constructor
  · rfl
  · norm_num

/-- C1 (amended): if computing any indicator column raises, the
function logs the failure and returns the original input frame
unchanged — with no indicator columns added at all, including those
whose computation succeeded before the failure (all-or-nothing, not
per-indicator isolation). -/
theorem indicators_failure_returns_original
    (specs : List (String × IndicatorComp)) (f : Frame) (hne : f.nav ≠ [])
    (hfail : ∃ e, addCols f.nav f.cols specs = Except.error e) :
    calculate_technical_indicators specs (some f) = some f := by
  obtain ⟨e, he⟩ := hfail
  simp only [calculate_technical_indicators]
  rw [if_neg hne, he]

/-- Witness for `indicators_failure_returns_original`: a single failing
indicator on a one-row frame. -/
theorem indicators_failure_returns_original_witness :
    calculate_technical_indicators [("B", fun _ => Except.error ())]
      (some ⟨[1], []⟩) = some ⟨[1], []⟩ :=
  indicators_failure_returns_original [("B", fun _ => Except.error ())]
    ⟨[1], []⟩ (by simp) ⟨(), rfl⟩

/-- C1 (counterexample): two requested indicators, `"A"` computed
successfully and `"B"` raising.  The claim predicts a returned table
containing the `"A"` column with only `"B"` absent; the code instead
returns the original frame, whose column list is empty — even the
successfully computed `"A"` column is dropped. -/
theorem indicators_partial_failure_counterexample :
    calculate_technical_indicators
      [("A", fun _ => Except.ok [some 1]), ("B", fun _ => Except.error ())]
      (some ⟨[1], []⟩) = some ⟨[1], []⟩ ∧
    (⟨[1], []⟩ : Frame).cols.lookup "A" = none := by
  constructor
  · rfl
  · rfl

/-- C10: each core pipeline operation tolerates a missing (`None`) or
empty input at its public entry, returning its null result: `None` for
`calculate_technical_indicators`, `calculate_performance_metrics` and
`generate_technical_analysis_summary`, and `([], [])` for
`detect_golden_cross_death_cross`. -/
theorem none_empty_input_guards (specs : List (String × IndicatorComp))
    (K : NumericKernels) (bdf : Option (List BenchRow))
    (cols : List (String × List (Option ℚ))) :
    calculate_technical_indicators specs none = none ∧
    calculate_technical_indicators specs (some ⟨[], cols⟩) = none ∧
    calculate_performance_metrics K none bdf = none ∧
    calculate_performance_metrics K (some []) bdf = none ∧
    detect_golden_cross_death_cross none = ([], []) ∧
    detect_golden_cross_death_cross (some []) = ([], []) ∧
    generate_technical_analysis_summary none = none ∧
    generate_technical_analysis_summary (some []) = none := by
  refine ⟨rfl, ?_, rfl, rfl, rfl, rfl, rfl, rfl⟩
  simp [calculate_technical_indicators]

end FundSelector

